import Mathlib

set_option maxHeartbeats 1000000

/-!
Verification of the pinto project/environment lifecycle manager and
pipeline step resolver, embedded from `src/pinto/project.py` and
`src/pinto/cli.py`.  Pure functions of the source become Lean
functions; Python exceptions become `Except` results; the opaque
environment-provisioning collaborator is represented by the trace of
operations invoked on it.
-/

/-- Python exception values surfaced by the core: `ValueError` (the spec's
`MissingDescriptor` / `MissingKey` / `StepParseError`, distinguished by
message), a raw `KeyError` from a failed subscript, and the environment
execution failure (`EnvironmentExecutionError`) carrying stderr and the
exit code. -/
inductive PyErr where
  | valueError (msg : String)
  | keyError (key : String)
  | envExecError (stderr : String) (exitCode : Int)
deriving DecidableEq

/-- A parsed `pyproject.toml` configuration mapping: nested string-keyed
tables with string leaves and lists of strings — the shapes the core
consumes (spec §3: a "nested key-value structure"). -/
inductive Toml where
  | str (s : String)
  | strs (xs : List String)
  | table (entries : List (String × Toml))

/-- Python dict lookup `d[k]` over a table's entry list. -/
def lookupKey : List (String × Toml) → String → Option Toml
  | [], _ => none
  | kv :: rest, k => if kv.1 = k then some kv.2 else lookupKey rest k

/-- Python subscript `config[k]`: the stored value, or a raised
`KeyError k` when the key is absent.  (Subscripting a non-table leaf is
outside the well-formed configuration domain modelled here and is also
mapped to the key-lookup failure.) -/
def Toml.index (t : Toml) (k : String) : Except PyErr Toml :=
  match t with
  | Toml.table es =>
    match lookupKey es k with
    | some v => Except.ok v
    | none => Except.error (PyErr.keyError k)
  | _ => Except.error (PyErr.keyError k)

/-- Chained subscripts `config[k1][k2]...`, `none` when any link is
missing. -/
def Toml.indexPath (t : Toml) : List String → Option Toml
  | [] => some t
  | k :: ks =>
    match Toml.index t k with
    | Except.ok v => Toml.indexPath v ks
    | Except.error _ => none

/-- Python `x in v` on a scripts value: membership in a dict's keys or in
a list of strings. -/
def Toml.hasMember (t : Toml) (x : String) : Bool :=
  match t with
  | Toml.table es => es.any (fun kv => kv.1 == x)
  | Toml.strs xs => xs.any (fun s => s == x)
  | Toml.str _ => false

/-- Python `step.split(":")` on the underlying character list: fixed
single-character separator, empty fields kept, and the empty string
splits into `[""]`. -/
def splitColon : List Char → List (List Char)
  | [] => [[]]
  | c :: rest =>
    if c = ':' then [] :: splitColon rest
    else
      match splitColon rest with
      | f :: fs => (c :: f) :: fs
      | [] => [[c]]

/-- `str.split(":")` at the `String` level. -/
def pySplit (s : String) : List String :=
  (splitColon s.data).map (fun cs => String.mk cs)

/-- Step parsing from `cli.run`: unpack the split into three fields;
on a `ValueError` (wrong count) retry with two fields and no
subcommand; otherwise raise a `ValueError` naming the raw step string. -/
def parseStep (step : String) : Except PyErr (String × String × Option String) :=
  match pySplit step with
  | [component, command, subcommand] => Except.ok (component, command, some subcommand)
  | [component, command] => Except.ok (component, command, none)
  | _ => Except.error (PyErr.valueError ("Can't parse pipeline step '" ++ step ++ "'"))

/-- Override-argument construction in `Pipeline.run_step`
(`src/pinto/project.py`): start from the pipeline path; inside
`try`, when `command in typeo_config["scripts"]` append `":" + command`
(`typeo_config["scripts"]` raises `KeyError` when the key is absent);
on `KeyError` append `"::" + subcommand` when a subcommand was given;
in the `else` clause (no exception, whether or not the command was a
registered script) append `":" + subcommand` when a subcommand was
given. -/
def Pipeline.runStepArg (path : String) (typeoConfig : Toml) (command : String)
    (subcommand : Option String) : String :=
  match Toml.index typeoConfig "scripts" with
  | Except.error _ =>
    match subcommand with
    | some sc => path ++ "::" ++ sc
    | none => path
  | Except.ok scripts =>
    let arg := if Toml.hasMember scripts command then path ++ ":" ++ command else path
    match subcommand with
    | some sc => arg ++ ":" ++ sc
    | none => arg

/-- Observable outcome of one `Pipeline.run_step` call: the argument
vector passed to `project.run`, and the value `run_step` itself returns
to its caller. -/
structure RunStepResult where
  runArgs : List String
  returned : Option String
deriving DecidableEq

/-- `Pipeline.run_step`: builds the override argument, invokes
`project.run(command, "--typeo", typeo_arg)` (whose captured stdout is
`runStdout`), and then falls off the end of the function body — there is
no `return` statement, so its Python return value is `None`. -/
def Pipeline.run_step (path : String) (typeoConfig : Toml) (command : String)
    (subcommand : Option String) (runStdout : String) : RunStepResult :=
  let arg := Pipeline.runStepArg path typeoConfig command subcommand
  let _ := runStdout
  { runArgs := [command, "--typeo", arg], returned := none }

/-- Operations a `Project` invokes on its `Environment` collaborator,
recorded as a trace in invocation order. -/
inductive EnvOp where
  | create
  | installProj
  | runCmd (args : List String)
deriving DecidableEq

/-- Number of `install` calls in a trace. -/
def countInstalls (ops : List EnvOp) : Nat :=
  ops.countP (fun op => match op with | EnvOp.installProj => true | _ => false)

/-- `Project.install(force)` from `src/pinto/project.py`, as the trace of
environment operations it performs, parametric in the environment's two
boolean answers: `envExists` is `self._venv.exists()` queried at entry,
and `containsAns` is `self._venv.contains(self)` queried after the
conditional `create`.  Source shape: `if not exists(): create()`; then
`if not contains(self): install()` / `elif force: install()` /
`else: pass`. -/
def Project.installOps (envExists containsAns force : Bool) : List EnvOp :=
  (if !envExists then [EnvOp.create] else [])
    ++ (if !containsAns then [EnvOp.installProj]
        else if force then [EnvOp.installProj]
        else [])

/-- Modelled from the spec: the `Environment` class (`pinto/env.py`) is
not under `src/`.  Spec §3 gives its lifecycle states
`absent` → `exists-but-project-not-installed` → `exists-and-installed`. -/
inductive EnvState where
  | absent
  | createdEmpty
  | installed
deriving DecidableEq

/-- Modelled from the spec: `Environment.exists()` is true iff the
underlying provisioned environment has been created (spec §4.2). -/
def envExists : EnvState → Bool
  | EnvState.absent => false
  | _ => true

/-- Modelled from the spec: `Environment.contains(project)` is true iff
the project is currently installed into the environment (spec §4.2);
`create()` provisions a new empty environment, so a freshly created
environment does not yet contain the project (spec §3, §4.2). -/
def envContains : EnvState → Bool
  | EnvState.installed => true
  | _ => false

/-- Modelled from the spec: the environment state after the conditional
`create()` in `Project.install` — creation moves an absent environment
to the exists-but-project-not-installed state. -/
def envAfterCreate (s : EnvState) : EnvState :=
  if envExists s then s else EnvState.createdEmpty

/-- `Project.install(force)` from a concrete environment state: the
environment's answers are supplied by the spec-modelled state machine. -/
def Project.installFrom (s : EnvState) (force : Bool) : List EnvOp :=
  Project.installOps (envExists s) (envContains (envAfterCreate s)) force

/-- `Project.run(*args)` from `src/pinto/project.py`:
`if not self._venv.exists() or not self._venv.contains(self):
self.install()`, then `return self._venv.run(*args)`.  The underlying
process outcome of `Environment.run` is the opaque `outcome` (captured
stdout on success, `EnvironmentExecutionError` on non-zero exit); the
result pairs the environment-operation trace with the value `run`
returns or the exception it propagates. -/
def Project.runFrom (s : EnvState) (args : List String)
    (outcome : Except PyErr String) : List EnvOp × Except PyErr String :=
  let ops :=
    if !envExists s || !envContains s then Project.installFrom s false else []
  (ops ++ [EnvOp.runCmd args], outcome)

/-- `Pipeline.steps` property: `self.config["tool"]["pinto"]["steps"]`. -/
def Pipeline.stepsOf (config : Toml) : Except PyErr Toml :=
  match Toml.index config "tool" with
  | Except.error e => Except.error e
  | Except.ok t =>
    match Toml.index t "pinto" with
    | Except.error e => Except.error e
    | Except.ok pt => Toml.index pt "steps"

/-- `Pipeline.typeo_config` property: `self.config["tool"]["typeo"]`. -/
def Pipeline.typeoOf (config : Toml) : Except PyErr Toml :=
  match Toml.index config "tool" with
  | Except.error e => Except.error e
  | Except.ok t => Toml.index t "typeo"

/-- `ProjectBase.__post_init__` descriptor error message for a class. -/
def noDescriptorMsg (cls path : String) : String :=
  cls ++ " " ++ path ++ " has no associated 'pyproject.toml' at location "
    ++ path ++ "/pyproject.toml"

/-- `Pipeline.__post_init__` over the loaded descriptor: `none` models a
missing `pyproject.toml` (the `FileNotFoundError` branch of
`ProjectBase.__post_init__`); otherwise evaluating `self.steps` under
`except KeyError` raises the first `ValueError`, then evaluating
`self.typeo_config` under `except KeyError` raises the second; on
success the pipeline holds its configuration. -/
def Pipeline.construct (path : String) (descriptor : Option Toml) :
    Except PyErr Toml :=
  match descriptor with
  | none => Except.error (PyErr.valueError (noDescriptorMsg "Pipeline" path))
  | some config =>
    match Pipeline.stepsOf config with
    | Except.error _ =>
      Except.error (PyErr.valueError
        ("Config file " ++ path
          ++ "/pyproject.toml has no '[tool.pinto]' table or 'steps' key in it."))
    | Except.ok _ =>
      match Pipeline.typeoOf config with
      | Except.error _ =>
        Except.error (PyErr.valueError
          ("Config file " ++ path
            ++ "/pyproject.toml has no '[tool.typeo]' table necessary to run projects."))
      | Except.ok _ => Except.ok config

/-- `Project.__post_init__` name derivation:
`self._config["tool"]["poetry"]["name"]`, raw subscripts with no
`except` guard. -/
def Project.nameOf (config : Toml) : Except PyErr Toml :=
  match Toml.index config "tool" with
  | Except.error e => Except.error e
  | Except.ok t =>
    match Toml.index t "poetry" with
    | Except.error e => Except.error e
    | Except.ok po => Toml.index po "name"

/-- `Project` construction over the loaded descriptor: a missing
`pyproject.toml` raises the `ValueError` from
`ProjectBase.__post_init__`; otherwise the name subscript chain runs
unguarded. -/
def Project.construct (path : String) (descriptor : Option Toml) :
    Except PyErr Toml :=
  match descriptor with
  | none => Except.error (PyErr.valueError (noDescriptorMsg "Project" path))
  | some config => Project.nameOf config

/-- `Project.pinto_config` property: `self.config["tool"]["pinto"].copy()`
under `except KeyError: return {}`. -/
def Project.pinto_config (config : Toml) : Toml :=
  match Toml.index config "tool" with
  | Except.error _ => Toml.table []
  | Except.ok t =>
    match Toml.index t "pinto" with
    | Except.error _ => Toml.table []
    | Except.ok sub => sub

/-- Observable events of one pipeline step in `cli.run`: the sub-project
resolution (`pipeline.create_project(component)` succeeded) and the
delegated execution with the argument vector passed to `project.run`. -/
inductive StepEvent where
  | resolved (component : String)
  | executed (component : String) (runArgs : List String)
deriving DecidableEq

/-- One iteration of the `cli.run` loop body for a step string: parse it,
construct the sub-project (`projects` gives `Project` construction's
outcome for each component name), then `pipeline.run_step`, whose
`project.run(command, "--typeo", arg)` call has outcome
`exec component args`. -/
def cliRunStep (plPath : String) (typeoConfig : Toml)
    (projects : String → Except PyErr Unit)
    (exec : String → List String → Except PyErr String)
    (step : String) : List StepEvent × Except PyErr Unit :=
  match parseStep step with
  | Except.error e => ([], Except.error e)
  | Except.ok (component, command, subcommand) =>
    match projects component with
    | Except.error e => ([], Except.error e)
    | Except.ok _ =>
      let args :=
        [command, "--typeo", Pipeline.runStepArg plPath typeoConfig command subcommand]
      match exec component args with
      | Except.error e => ([StepEvent.resolved component], Except.error e)
      | Except.ok _ =>
        ([StepEvent.resolved component, StepEvent.executed component args],
          Except.ok ())

/-- The `for step in pipeline.steps` loop of `cli.run`: steps are
processed sequentially in declared order, and an uncaught exception in a
step's body aborts the loop (fail-fast — no handler wraps the body). -/
def cliRunLoop (plPath : String) (typeoConfig : Toml)
    (projects : String → Except PyErr Unit)
    (exec : String → List String → Except PyErr String) :
    List String → List StepEvent × Except PyErr Unit
  | [] => ([], Except.ok ())
  | s :: rest =>
    let r := cliRunStep plPath typeoConfig projects exec s
    match r.2 with
    | Except.error e => (r.1, Except.error e)
    | Except.ok _ =>
      let r2 := cliRunLoop plPath typeoConfig projects exec rest
      (r.1 ++ r2.1, r2.2)

/-- Concatenated per-step event traces in declared order. -/
def stepTraces (plPath : String) (typeoConfig : Toml)
    (projects : String → Except PyErr Unit)
    (exec : String → List String → Except PyErr String) :
    List String → List StepEvent
  | [] => []
  | s :: rest =>
    (cliRunStep plPath typeoConfig projects exec s).1
      ++ stepTraces plPath typeoConfig projects exec rest

/-- A value stored in a Python dict: a primitive leaf or a reference to
another dict object on the heap.  Used to model the aliasing behaviour
of `dict.copy()` in `ProjectBase.config`. -/
inductive PyVal where
  | prim (s : String)
  | ref (a : Nat)
deriving DecidableEq

/-- One dict object: an ordered association of keys to stored values. -/
abbrev DictObj : Type := List (String × PyVal)

/-- The Python object heap: dict objects at numeric addresses, plus the
next fresh address. -/
structure Heap where
  mem : List (Nat × DictObj)
  next : Nat

/-- Heap lookup of the dict object at an address. -/
def getAddr : List (Nat × DictObj) → Nat → Option DictObj
  | [], _ => none
  | nt :: rest, a => if nt.1 = a then some nt.2 else getAddr rest a

/-- The dict object at address `a`. -/
def Heap.get (h : Heap) (a : Nat) : Option DictObj :=
  getAddr h.mem a

/-- Python `d[k]` on one dict object. -/
def DictObj.lookupVal : DictObj → String → Option PyVal
  | [], _ => none
  | kv :: rest, k => if kv.1 = k then some kv.2 else DictObj.lookupVal rest k

/-- Python `d[k] = v` on one dict object: overwrite in place when the key
is present, else append. -/
def DictObj.setVal : DictObj → String → PyVal → DictObj
  | [], k, v => [(k, v)]
  | kv :: rest, k, v =>
    if kv.1 = k then (k, v) :: rest else kv :: DictObj.setVal rest k v

/-- In-place mutation `d[k] = v` of the dict object at address `a`. -/
def setAddr : List (Nat × DictObj) → Nat → String → PyVal → List (Nat × DictObj)
  | [], _, _, _ => []
  | nt :: rest, a, k, v =>
    if nt.1 = a then (nt.1, DictObj.setVal nt.2 k v) :: rest
    else nt :: setAddr rest a k v

/-- Heap after mutating key `k` of the dict at address `a`. -/
def Heap.setKey (h : Heap) (a : Nat) (k : String) (v : PyVal) : Heap :=
  { mem := setAddr h.mem a k v, next := h.next }

/-- Reading a key path from the dict at address `a`, following
references; the empty path denotes the dict itself. -/
def Heap.readPath (h : Heap) (a : Nat) : List String → Option PyVal
  | [] => some (PyVal.ref a)
  | k :: ks =>
    match Heap.get h a with
    | none => none
    | some d =>
      match DictObj.lookupVal d k with
      | none => none
      | some (PyVal.prim s) => if ks.isEmpty then some (PyVal.prim s) else none
      | some (PyVal.ref b) => Heap.readPath h b ks

/-- Python `dict.copy()` of the dict at address `a`: allocates a fresh
top-level dict holding the very same entry list — a SHALLOW copy, so
reference values still point at the shared nested dict objects.  Returns
the extended heap and the fresh address (a missing address copies
nothing). -/
def Heap.copyDict (h : Heap) (a : Nat) : Heap × Nat :=
  match Heap.get h a with
  | some d => ({ mem := (h.next, d) :: h.mem, next := h.next + 1 }, h.next)
  | none => (h, a)

/-- The `ProjectBase.config` property: `return self._config.copy()` —
the caller receives the address of a fresh shallow copy of the internal
configuration dict rooted at `root`. -/
def ProjectBase.config (h : Heap) (root : Nat) : Heap × Nat :=
  Heap.copyDict h root

/-- Heap well-formedness: every stored address and every reference is
below the next fresh address. -/
def Heap.wfb (h : Heap) : Bool :=
  h.mem.all (fun nt =>
    decide (nt.1 < h.next)
      && nt.2.all (fun kv =>
        match kv.2 with
        | PyVal.ref b => decide (b < h.next)
        | PyVal.prim _ => true))

/-- Decidable equality for `Except` results, used to evaluate concrete
witnesses. -/
instance {ε : Type} {α : Type} [DecidableEq ε] [DecidableEq α] :
    DecidableEq (Except ε α) := fun a b =>
  match a, b with
  | Except.error e, Except.error f =>
    if h : e = f then Decidable.isTrue (congrArg Except.error h)
    else Decidable.isFalse (fun hh => h (Except.error.inj hh))
  | Except.ok x, Except.ok y =>
    if h : x = y then Decidable.isTrue (congrArg Except.ok h)
    else Decidable.isFalse (fun hh => h (Except.ok.inj hh))
  | Except.error _, Except.ok _ => Decidable.isFalse (fun hh => Except.noConfusion hh)
  | Except.ok _, Except.error _ => Decidable.isFalse (fun hh => Except.noConfusion hh)

/-- A typeo configuration table registering the scripts `build`, `test`
and `train`. -/
def demoTypeo : Toml :=
  Toml.table [("scripts", Toml.strs ["build", "test", "train"])]

/-- Sub-project construction that succeeds for every component name. -/
def demoProjects : String → Except PyErr Unit := fun _ => Except.ok ()

/-- An execution collaborator whose process exits non-zero for component
`a` and succeeds elsewhere. -/
def demoExecFail : String → List String → Except PyErr String :=
  fun c _ => if c = "a" then Except.error (PyErr.envExecError "boom" 1) else Except.ok "out"

/-- An execution collaborator that always captures stdout `out`. -/
def demoExecOk : String → List String → Except PyErr String :=
  fun _ _ => Except.ok "out"

/-- A configuration with a typeo table but no `tool.pinto.steps`. -/
def cfgNoSteps : Toml :=
  Toml.table [("tool", Toml.table [("typeo", Toml.table [])])]

/-- A configuration with steps but no `tool.typeo` table. -/
def cfgNoTypeo : Toml :=
  Toml.table
    [("tool", Toml.table [("pinto", Toml.table [("steps", Toml.strs ["a:build"])])])]

/-- A configuration carrying both required pipeline tables. -/
def cfgFull : Toml :=
  Toml.table
    [("tool", Toml.table
      [("pinto", Toml.table [("steps", Toml.strs ["a:build"])]),
       ("typeo", Toml.table [("scripts", Toml.strs ["build"])])])]

/-- A project configuration with an identity entry but no `tool.pinto`
table. -/
def cfgNoPinto : Toml :=
  Toml.table
    [("tool", Toml.table [("poetry", Toml.table [("name", Toml.str "demo")])])]

/-- A configuration whose descriptor exists but which lacks the nested
`tool.poetry.name` identity entry. -/
def cfgNoName : Toml :=
  Toml.table [("tool", Toml.table [("poetry", Toml.table [])])]

/-- A two-object heap: the internal configuration dict at address 0 whose
`tool` entry references the nested dict at address 1. -/
def demoHeap : Heap :=
  { mem := [(0, [("tool", PyVal.ref 1)]), (1, [("poetry", PyVal.prim "demo")])],
    next := 2 }

/-!  Theorems settling the claims. -/

/-- C3: for every pair of environment answers (covering the absent,
exists-not-installed and exists-and-installed states) and every value of
the force flag, one `Project.install` invocation calls the environment's
`install` at most once; when the environment already contains the
project and force is false no `install` (and no other operation) is
performed, and when it already contains the project and force is true
`install` is called exactly once. -/
theorem install_call_discipline :
    (∀ e c f : Bool, countInstalls (Project.installOps e c f) ≤ 1)
  ∧ Project.installOps true true false = []
  ∧ countInstalls (Project.installOps true true true) = 1 :=
  ⟨by decide, rfl, rfl⟩

/-- C5: running a command on a project whose environment is absent
performs exactly one `create`, then exactly one `install`, and only then
executes the command in the environment; the outcome of the
environment's run operation (captured stdout, or the propagated
`EnvironmentExecutionError`) is returned unchanged. -/
theorem run_absent_env_creates_installs_then_executes
    (args : List String) (outcome : Except PyErr String) :
    Project.runFrom EnvState.absent args outcome
      = ([EnvOp.create, EnvOp.installProj, EnvOp.runCmd args], outcome) := rfl

/-- C1 counterexample: with a scripts table registering only `train`, the
command `lint` is not a registered script; with subcommand `strict` the
override argument built by `run_step` is `/p:strict` — a single colon —
and not the claimed `/p::strict`. -/
theorem run_step_unregistered_subcommand_single_colon :
    Pipeline.runStepArg "/p" (Toml.table [("scripts", Toml.strs ["train"])])
        "lint" (some "strict") = "/p:strict"
  ∧ "/p:strict" ≠ "/p::strict" :=
  ⟨rfl, by decide⟩

/-- C1 amended: the override argument takes exactly one of five literal
shapes, discriminated by whether the typeo table has a `scripts` key,
whether the command is registered there, and whether a subcommand was
supplied: `<path>`, `<path>::<subcommand>` (no `scripts` key),
`<path>:<command>`, `<path>:<command>:<subcommand>` (registered), or
`<path>:<subcommand>` (a `scripts` key present but the command not
registered, with a subcommand). -/
theorem run_step_arg_five_shapes (p : String) (cfg : Toml) (cmd : String)
    (sub : Option String) :
    ((Toml.index cfg "scripts").isOk = false ∧ sub = none
        ∧ Pipeline.runStepArg p cfg cmd sub = p)
  ∨ ((Toml.index cfg "scripts").isOk = false
        ∧ ∃ sc, sub = some sc ∧ Pipeline.runStepArg p cfg cmd sub = p ++ "::" ++ sc)
  ∨ (∃ scr, Toml.index cfg "scripts" = Except.ok scr ∧ Toml.hasMember scr cmd = true
        ∧ sub = none ∧ Pipeline.runStepArg p cfg cmd sub = p ++ ":" ++ cmd)
  ∨ (∃ scr sc, Toml.index cfg "scripts" = Except.ok scr
        ∧ Toml.hasMember scr cmd = true ∧ sub = some sc
        ∧ Pipeline.runStepArg p cfg cmd sub = p ++ ":" ++ cmd ++ ":" ++ sc)
  ∨ (∃ scr, Toml.index cfg "scripts" = Except.ok scr ∧ Toml.hasMember scr cmd = false
        ∧ sub = none ∧ Pipeline.runStepArg p cfg cmd sub = p)
  ∨ (∃ scr sc, Toml.index cfg "scripts" = Except.ok scr
        ∧ Toml.hasMember scr cmd = false ∧ sub = some sc
        ∧ Pipeline.runStepArg p cfg cmd sub = p ++ ":" ++ sc) := by
  cases hidx : Toml.index cfg "scripts" with
  | error e =>
    cases sub with
    | none =>
      exact Or.inl ⟨rfl, rfl, by simp [Pipeline.runStepArg, hidx]⟩
    | some sc =>
      exact Or.inr (Or.inl ⟨rfl, sc, rfl, by simp [Pipeline.runStepArg, hidx]⟩)
  | ok scr =>
    cases hm : Toml.hasMember scr cmd with
    | true =>
      cases sub with
      | none =>
        exact Or.inr (Or.inr (Or.inl
          ⟨scr, rfl, hm, rfl, by simp [Pipeline.runStepArg, hidx, hm]⟩))
      | some sc =>
        exact Or.inr (Or.inr (Or.inr (Or.inl
          ⟨scr, sc, rfl, hm, rfl, by simp [Pipeline.runStepArg, hidx, hm]⟩)))
    | false =>
      cases sub with
      | none =>
        exact Or.inr (Or.inr (Or.inr (Or.inr (Or.inl
          ⟨scr, rfl, hm, rfl, by simp [Pipeline.runStepArg, hidx, hm]⟩))))
      | some sc =>
        exact Or.inr (Or.inr (Or.inr (Or.inr (Or.inr
          ⟨scr, sc, rfl, hm, rfl, by simp [Pipeline.runStepArg, hidx, hm]⟩))))

/-- C2: `run_step` does delegate to `project.run` with the command, the
`--typeo` override flag and the override argument, but it contains no
`return` statement, so its own return value is `None` — not the captured
stdout of the delegated call (here `"captured stdout"`), which is
discarded. -/
theorem run_step_discards_captured_stdout :
    (Pipeline.run_step "/p" demoTypeo "train" none "captured stdout").runArgs
      = ["train", "--typeo", "/p:train"]
  ∧ (Pipeline.run_step "/p" demoTypeo "train" none "captured stdout").returned = none
  ∧ (Pipeline.run_step "/p" demoTypeo "train" none "captured stdout").returned
      ≠ some "captured stdout" :=
  ⟨rfl, rfl, by decide⟩


/-- A subscript either succeeds or raises the `KeyError` naming the
subscripted key — `Toml.index` produces no other error. -/
theorem index_ok_or_keyError (t : Toml) (k : String) :
    (∃ v, Toml.index t k = Except.ok v)
  ∨ Toml.index t k = Except.error (PyErr.keyError k) := by
  cases t with
  | str s => exact Or.inr rfl
  | strs xs => exact Or.inr rfl
  | table es =>
    cases h : lookupKey es k with
    | none => exact Or.inr (by simp [Toml.index, h])
    | some v => exact Or.inl ⟨v, by simp [Toml.index, h]⟩

/-- C9: on a configuration whose `tool.pinto` sub-table is missing, the
`pinto_config` property does not propagate the key failure: the
`except KeyError` handler returns the empty mapping. -/
theorem pinto_config_missing_table_empty (config : Toml)
    (h : (Toml.indexPath config ["tool", "pinto"]).isSome = false) :
    Project.pinto_config config = Toml.table [] := by
  cases h1 : Toml.index config "tool" with
  | error e => simp [Project.pinto_config, h1]
  | ok t =>
    cases h2 : Toml.index t "pinto" with
    | error e => simp [Project.pinto_config, h1, h2]
    | ok v =>
      exfalso
      simp [Toml.indexPath, h1, h2] at h

/-- C9 witness: a project configuration with an identity entry but no
`tool.pinto` table reads as the empty pinto configuration. -/
theorem pinto_config_missing_table_empty_witness :
    Project.pinto_config cfgNoPinto = Toml.table [] :=
  pinto_config_missing_table_empty cfgNoPinto rfl

/-- C10: when the descriptor file exists but the nested
`tool.poetry.name` identity entry is missing, `Project` construction
surfaces a raw `KeyError` from the unguarded subscript chain — not a
`ValueError` (the type carrying the spec's `MissingDescriptor` and
`MissingKey` diagnostics). -/
theorem project_missing_name_raw_keyerror (p : String) (config : Toml)
    (h : (Toml.indexPath config ["tool", "poetry", "name"]).isSome = false) :
    (∃ k, Project.construct p (some config) = Except.error (PyErr.keyError k))
  ∧ ∀ msg, Project.construct p (some config) ≠ Except.error (PyErr.valueError msg) := by
  have hk : ∃ k, Project.construct p (some config)
      = Except.error (PyErr.keyError k) := by
    show ∃ k, Project.nameOf config = Except.error (PyErr.keyError k)
    rcases index_ok_or_keyError config "tool" with ⟨t, h1⟩ | h1
    · rcases index_ok_or_keyError t "poetry" with ⟨po, h2⟩ | h2
      · rcases index_ok_or_keyError po "name" with ⟨v, h3⟩ | h3
        · exfalso
          simp [Toml.indexPath, h1, h2, h3] at h
        · exact ⟨"name", by simp [Project.nameOf, h1, h2, h3]⟩
      · exact ⟨"poetry", by simp [Project.nameOf, h1, h2]⟩
    · exact ⟨"tool", by simp [Project.nameOf, h1]⟩
  refine ⟨hk, ?_⟩
  rcases hk with ⟨k, hkeq⟩
  intro msg hmsg
  rw [hkeq] at hmsg
  exact PyErr.noConfusion (Except.error.inj hmsg)

/-- C10 witness: a configuration with a `tool.poetry` table but no
`name` entry makes `Project` construction fail with a `KeyError`. -/
theorem project_missing_name_raw_keyerror_witness :
    (Toml.indexPath cfgNoName ["tool", "poetry", "name"]).isSome = false
  ∧ (∃ k, Project.construct "/p" (some cfgNoName)
        = Except.error (PyErr.keyError k)) :=
  ⟨rfl, (project_missing_name_raw_keyerror "/p" cfgNoName rfl).1⟩

/-- C7: constructing a `Pipeline` over a configuration missing the
`tool.pinto.steps` list fails with the `MissingKey` `ValueError` naming
the `[tool.pinto]` table / `steps` key; with steps present but the
`tool.typeo` scripts-configuration table missing it fails with the
`MissingKey` `ValueError` naming the `[tool.typeo]` table; and
construction succeeds exactly when both are present. -/
theorem pipeline_construction_requires_tables (p : String) (config : Toml) :
    ((Pipeline.stepsOf config).isOk = false →
      Pipeline.construct p (some config)
        = Except.error (PyErr.valueError
            ("Config file " ++ p
              ++ "/pyproject.toml has no '[tool.pinto]' table or 'steps' key in it.")))
  ∧ ((Pipeline.stepsOf config).isOk = true → (Pipeline.typeoOf config).isOk = false →
      Pipeline.construct p (some config)
        = Except.error (PyErr.valueError
            ("Config file " ++ p
              ++ "/pyproject.toml has no '[tool.typeo]' table necessary to run projects.")))
  ∧ ((Pipeline.construct p (some config)).isOk = true ↔
      (Pipeline.stepsOf config).isOk = true ∧ (Pipeline.typeoOf config).isOk = true) := by
  refine ⟨?_, ?_, ?_⟩
  · intro hs
    cases h1 : Pipeline.stepsOf config with
    | error e => simp [Pipeline.construct, h1]
    | ok v => rw [h1] at hs; exact absurd hs (by simp [Except.isOk, Except.toBool])
  · intro hs ht
    cases h1 : Pipeline.stepsOf config with
    | error e => rw [h1] at hs; exact absurd hs (by simp [Except.isOk, Except.toBool])
    | ok v =>
      cases h2 : Pipeline.typeoOf config with
      | error e => simp [Pipeline.construct, h1, h2]
      | ok w => rw [h2] at ht; exact absurd ht (by simp [Except.isOk, Except.toBool])
  · cases h1 : Pipeline.stepsOf config with
    | error e => simp [Pipeline.construct, h1, Except.isOk, Except.toBool]
    | ok v =>
      cases h2 : Pipeline.typeoOf config with
      | error e => simp [Pipeline.construct, h1, h2, Except.isOk, Except.toBool]
      | ok w => simp [Pipeline.construct, h1, h2, Except.isOk, Except.toBool]

/-- C7 witness: the missing-steps, missing-typeo and fully-present
configurations exercise all three conjuncts at path `/p`. -/
theorem pipeline_construction_requires_tables_witness :
    Pipeline.construct "/p" (some cfgNoSteps)
      = Except.error (PyErr.valueError
          "Config file /p/pyproject.toml has no '[tool.pinto]' table or 'steps' key in it.")
  ∧ Pipeline.construct "/p" (some cfgNoTypeo)
      = Except.error (PyErr.valueError
          "Config file /p/pyproject.toml has no '[tool.typeo]' table necessary to run projects.")
  ∧ (Pipeline.construct "/p" (some cfgFull)).isOk = true := by
  refine ⟨?_, ?_, ?_⟩
  · exact ((pipeline_construction_requires_tables "/p" cfgNoSteps).1 (by decide))
  · exact ((pipeline_construction_requires_tables "/p" cfgNoTypeo).2.1 (by decide) (by decide))
  · exact ((pipeline_construction_requires_tables "/p" cfgFull).2.2.mpr ⟨by decide, by decide⟩)

/-- A split never yields zero fields. -/
theorem splitColon_ne_nil (cs : List Char) : splitColon cs ≠ [] := by
  induction cs with
  | nil => simp [splitColon]
  | cons c rest ih =>
    simp only [splitColon]
    by_cases hc : c = ':'
    · simp [hc]
    · simp only [if_neg hc]
      cases h : splitColon rest with
      | nil => simp
      | cons f fs => simp

/-- Splitting a colon-free character list yields the single field. -/
theorem splitColon_no_colon (cs : List Char) (h : ':' ∉ cs) :
    splitColon cs = [cs] := by
  induction cs with
  | nil => rfl
  | cons c rest ih =>
    have hc : ¬ (c = ':') := by
      intro he
      exact h (by rw [he]; exact List.mem_cons_self _ _)
    have hrest : ':' ∉ rest := fun hr => h (List.mem_cons_of_mem c hr)
    simp [splitColon, if_neg hc, ih hrest]

/-- Splitting peels a colon-free prefix followed by a colon off as its
own leading field. -/
theorem splitColon_append (xs ys : List Char) (h : ':' ∉ xs) :
    splitColon (xs ++ ':' :: ys) = xs :: splitColon ys := by
  induction xs with
  | nil => simp [splitColon]
  | cons c rest ih =>
    have hc : ¬ (c = ':') := by
      intro he
      exact h (by rw [he]; exact List.mem_cons_self _ _)
    have hrest : ':' ∉ rest := fun hr => h (List.mem_cons_of_mem c hr)
    simp [splitColon, if_neg hc, ih hrest]

/-- Joining one colon between two colon-free strings splits back into
the two fields. -/
theorem pySplit_two (c cmd : String) (hc : ':' ∉ c.data) (hcmd : ':' ∉ cmd.data) :
    pySplit (c ++ ":" ++ cmd) = [c, cmd] := by
  unfold pySplit
  have hdata : (c ++ ":" ++ cmd).data = c.data ++ ':' :: cmd.data := by
    simp [String.data_append]
  rw [hdata, splitColon_append _ _ hc, splitColon_no_colon _ hcmd]
  rfl

/-- Joining two colons between three colon-free strings splits back into
the three fields. -/
theorem pySplit_three (c cmd sub : String) (hc : ':' ∉ c.data)
    (hcmd : ':' ∉ cmd.data) (hsub : ':' ∉ sub.data) :
    pySplit (c ++ ":" ++ cmd ++ ":" ++ sub) = [c, cmd, sub] := by
  unfold pySplit
  have hdata : (c ++ ":" ++ cmd ++ ":" ++ sub).data
      = c.data ++ ':' :: (cmd.data ++ ':' :: sub.data) := by
    simp [String.data_append]
  rw [hdata, splitColon_append _ _ hc, splitColon_append _ _ hcmd,
    splitColon_no_colon _ hsub]
  rfl

/-- C4 counterexample: the step string `a::b` splits into fields
`["a", "", "b"]` — the middle field is empty — yet parsing accepts it,
returning component `a`, the empty command and subcommand `b`, so
acceptance is not restricted to non-empty fields. -/
theorem parse_step_accepts_empty_fields :
    parseStep "a::b" = Except.ok ("a", "", some "b")
  ∧ pySplit "a::b" = ["a", "", "b"]
  ∧ "" ∈ pySplit "a::b" :=
  ⟨rfl, rfl, by decide⟩

/-- C4 amended: parsing accepts exactly the step strings that split on
`:` into 2 or 3 fields — empty fields included — recovering the joined
component/command/subcommand fields; a split of any other length (a
zero-field split never occurs) fails with the `StepParseError`
`ValueError` naming the offending raw step string. -/
theorem parse_step_field_counts (s : String) :
    (((pySplit s).length = 2 ∨ (pySplit s).length = 3) →
      ∃ out, parseStep s = Except.ok out)
  ∧ ((pySplit s).length ≠ 2 → (pySplit s).length ≠ 3 →
      parseStep s
        = Except.error (PyErr.valueError ("Can't parse pipeline step '" ++ s ++ "'")))
  ∧ (∀ c cmd : String, ':' ∉ c.data → ':' ∉ cmd.data →
      parseStep (c ++ ":" ++ cmd) = Except.ok (c, cmd, none))
  ∧ (∀ c cmd sub : String, ':' ∉ c.data → ':' ∉ cmd.data → ':' ∉ sub.data →
      parseStep (c ++ ":" ++ cmd ++ ":" ++ sub) = Except.ok (c, cmd, some sub)) := by
  refine ⟨?_, ?_, ?_, ?_⟩
  · intro hlen
    unfold parseStep
    rcases hsp : pySplit s with _ | ⟨a, _ | ⟨b, _ | ⟨c, _ | l⟩⟩⟩
    · rw [hsp] at hlen; simp at hlen
    · rw [hsp] at hlen; simp at hlen
    · exact ⟨(a, b, none), rfl⟩
    · exact ⟨(a, b, some c), rfl⟩
    · rw [hsp] at hlen; simp at hlen
  · intro h2 h3
    unfold parseStep
    rcases hsp : pySplit s with _ | ⟨a, _ | ⟨b, _ | ⟨c, _ | l⟩⟩⟩
    · rfl
    · rfl
    · rw [hsp] at h2; simp at h2
    · rw [hsp] at h3; simp at h3
    · rfl
  · intro c cmd hc hcmd
    unfold parseStep
    rw [pySplit_two c cmd hc hcmd]
  · intro c cmd sub hc hcmd hsub
    unfold parseStep
    rw [pySplit_three c cmd sub hc hcmd hsub]

/-- C4 witness: a colon-free string fails with the error naming it, and
the two- and three-field joins round-trip. -/
theorem parse_step_field_counts_witness :
    parseStep "nocolons"
      = Except.error (PyErr.valueError "Can't parse pipeline step 'nocolons'")
  ∧ parseStep "a:build" = Except.ok ("a", "build", none)
  ∧ parseStep "b:test:unit" = Except.ok ("b", "test", some "unit") := by
  refine ⟨?_, ?_, ?_⟩
  · exact (parse_step_field_counts "nocolons").2.1 (by decide) (by decide)
  · exact (parse_step_field_counts "a:build").2.2.1 "a" "build" (by decide) (by decide)
  · exact (parse_step_field_counts "b:test:unit").2.2.2 "b" "test" "unit"
      (by decide) (by decide) (by decide)

/-- C6: the `cli.run` loop processes steps strictly in declared order —
when every step up to and including a failing step `s` is reached, the
produced event trace is the concatenation of the per-step traces of the
completed prefix followed by the failing step's own events, the failure
is the loop's result, and the remaining steps contribute nothing (they
are never parsed, resolved or executed); when all steps succeed the
trace is exactly the per-step traces concatenated in declared order. -/
theorem pipeline_steps_in_order_fail_fast :
    (∀ (plPath : String) (typeoConfig : Toml)
        (projects : String → Except PyErr Unit)
        (exec : String → List String → Except PyErr String)
        (done : List String) (s : String) (rest : List String) (e : PyErr),
        (∀ d ∈ done, (cliRunStep plPath typeoConfig projects exec d).2 = Except.ok ()) →
        (cliRunStep plPath typeoConfig projects exec s).2 = Except.error e →
        cliRunLoop plPath typeoConfig projects exec (done ++ s :: rest)
          = (stepTraces plPath typeoConfig projects exec done
              ++ (cliRunStep plPath typeoConfig projects exec s).1,
             Except.error e))
  ∧ (∀ (plPath : String) (typeoConfig : Toml)
        (projects : String → Except PyErr Unit)
        (exec : String → List String → Except PyErr String)
        (steps : List String),
        (∀ d ∈ steps, (cliRunStep plPath typeoConfig projects exec d).2 = Except.ok ()) →
        cliRunLoop plPath typeoConfig projects exec steps
          = (stepTraces plPath typeoConfig projects exec steps, Except.ok ())) := by
  constructor
  · intro pp ty pr ex done
    induction done with
    | nil =>
      intro s rest e _ hs
      simp only [List.nil_append, stepTraces, cliRunLoop]
      rw [hs]
    | cons d ds ih =>
      intro s rest e hdone hs
      have hd : (cliRunStep pp ty pr ex d).2 = Except.ok () :=
        hdone d (List.mem_cons_self _ _)
      have hds : ∀ x ∈ ds, (cliRunStep pp ty pr ex x).2 = Except.ok () :=
        fun x hx => hdone x (List.mem_cons_of_mem d hx)
      have ihr := ih s rest e hds hs
      simp only [List.cons_append, cliRunLoop, hd]
      simp only [List.append_eq]
      rw [ihr]
      simp [stepTraces, List.append_assoc]
  · intro pp ty pr ex steps
    induction steps with
    | nil => intro _; rfl
    | cons d ds ih =>
      intro hall
      have hd : (cliRunStep pp ty pr ex d).2 = Except.ok () :=
        hall d (List.mem_cons_self _ _)
      have hds : ∀ x ∈ ds, (cliRunStep pp ty pr ex x).2 = Except.ok () :=
        fun x hx => hall x (List.mem_cons_of_mem d hx)
      simp only [cliRunLoop]
      rw [hd, ih hds]
      simp [stepTraces]

/-- C6 witness: with steps `["a:build", "b:test:unit"]`, a non-zero exit
in the first step leaves only that step's resolution in the trace — the
second step is never resolved — while an all-success run resolves and
executes both steps in declared order. -/
theorem pipeline_steps_in_order_fail_fast_witness :
    cliRunLoop "/p" demoTypeo demoProjects demoExecFail ["a:build", "b:test:unit"]
      = ([StepEvent.resolved "a"], Except.error (PyErr.envExecError "boom" 1))
  ∧ cliRunLoop "/p" demoTypeo demoProjects demoExecOk ["a:build", "b:test:unit"]
      = ([StepEvent.resolved "a",
          StepEvent.executed "a" ["build", "--typeo", "/p:build"],
          StepEvent.resolved "b",
          StepEvent.executed "b" ["test", "--typeo", "/p:test:unit"]],
         Except.ok ()) := by
  constructor
  · have h := pipeline_steps_in_order_fail_fast.1 "/p" demoTypeo demoProjects
      demoExecFail [] "a:build" ["b:test:unit"] (PyErr.envExecError "boom" 1)
      (by intro d hd; cases hd) (by decide)
    exact h.trans (by decide)
  · have h := pipeline_steps_in_order_fail_fast.2 "/p" demoTypeo demoProjects
      demoExecOk ["a:build", "b:test:unit"] (by decide)
    exact h.trans (by decide)

/-- Looking up a different address is unaffected by an in-place dict
mutation. -/
theorem getAddr_setAddr_ne (mem : List (Nat × DictObj)) (c a : Nat) (k : String)
    (v : PyVal) (h : a ≠ c) : getAddr (setAddr mem c k v) a = getAddr mem a := by
  induction mem with
  | nil => rfl
  | cons nt rest ih =>
    simp only [setAddr]
    by_cases h1 : nt.1 = c
    · simp only [if_pos h1, getAddr]
      rw [if_neg (by rw [h1]; exact fun he => h he.symm)]
      rw [if_neg (by rw [h1]; exact fun he => h he.symm)]
    · simp only [if_neg h1, getAddr]
      by_cases h2 : nt.1 = a
      · rw [if_pos h2, if_pos h2]
      · rw [if_neg h2, if_neg h2, ih]

/-- A successful address lookup locates a stored entry. -/
theorem getAddr_mem (mem : List (Nat × DictObj)) (a : Nat) (d : DictObj)
    (h : getAddr mem a = some d) : (a, d) ∈ mem := by
  induction mem with
  | nil => exact absurd h (by simp [getAddr])
  | cons nt rest ih =>
    rcases nt with ⟨n, t⟩
    by_cases h1 : n = a
    · subst h1
      simp only [getAddr, if_pos rfl] at h
      cases h
      exact List.mem_cons_self _ _
    · simp only [getAddr, if_neg h1] at h
      exact List.mem_cons_of_mem _ (ih h)

/-- A successful key lookup locates a stored key-value pair. -/
theorem lookupVal_mem (d : DictObj) (k : String) (v : PyVal)
    (h : DictObj.lookupVal d k = some v) : (k, v) ∈ d := by
  induction d with
  | nil => exact absurd h (by simp [DictObj.lookupVal])
  | cons kv rest ih =>
    rcases kv with ⟨k1, v1⟩
    by_cases h1 : k1 = k
    · simp only [DictObj.lookupVal, if_pos h1] at h
      subst h1
      cases h
      exact List.mem_cons_self _ _
    · simp only [DictObj.lookupVal, if_neg h1] at h
      exact List.mem_cons_of_mem _ (ih h)

/-- In a well-formed heap every reference stored in a reachable dict
stays below the allocation frontier. -/
theorem wfb_ref_lt (h : Heap) (hwf : Heap.wfb h = true) (a : Nat) (d : DictObj)
    (hd : Heap.get h a = some d) (k : String) (b : Nat)
    (hb : DictObj.lookupVal d k = some (PyVal.ref b)) : b < h.next := by
  have hmem := getAddr_mem h.mem a d hd
  have hkv := lookupVal_mem d k (PyVal.ref b) hb
  unfold Heap.wfb at hwf
  rw [List.all_eq_true] at hwf
  have h1 := hwf (a, d) hmem
  rw [Bool.and_eq_true] at h1
  have h2 := h1.2
  rw [List.all_eq_true] at h2
  have h3 := h2 (k, PyVal.ref b) hkv
  exact of_decide_eq_true h3

/-- Mutating the freshly allocated shallow copy leaves every read
through addresses below the old allocation frontier unchanged. -/
theorem readPath_shallow_copy_frame (h : Heap) (d0 : DictObj) (k : String)
    (v : PyVal) (hwf : Heap.wfb h = true) (p : List String) :
    ∀ a : Nat, a < h.next →
      Heap.readPath
          (Heap.setKey { mem := (h.next, d0) :: h.mem, next := h.next + 1 } h.next k v)
          a p
        = Heap.readPath h a p := by
  induction p with
  | nil => intro a _; rfl
  | cons k1 ks ih =>
    intro a ha
    have hget : Heap.get
        (Heap.setKey { mem := (h.next, d0) :: h.mem, next := h.next + 1 } h.next k v) a
        = Heap.get h a := by
      show getAddr (setAddr ((h.next, d0) :: h.mem) h.next k v) a = getAddr h.mem a
      rw [getAddr_setAddr_ne _ _ _ _ _ (Nat.ne_of_lt ha)]
      show (if h.next = a then some d0 else getAddr h.mem a) = getAddr h.mem a
      rw [if_neg (fun he => Nat.ne_of_lt ha he.symm)]
    simp only [Heap.readPath]
    rw [hget]
    cases hd : Heap.get h a with
    | none => rfl
    | some d =>
      cases hk : DictObj.lookupVal d k1 with
      | none => simp [hk]
      | some pv =>
        cases pv with
        | prim s => simp [hk]
        | ref b =>
          have hb := wfb_ref_lt h hwf a d hd k1 b hk
          simpa [hk] using ih b hb

/-- C8 counterexample: reading `config` hands out a fresh top-level dict
(`dict.copy()`), but its `tool` entry still references the shared nested
dict at address 1; writing a key through that nested reference obtained
from the copy makes the key visible when reading the project's internal
configuration at address 0 — the nested mutation leaks back. -/
theorem config_copy_nested_mutation_leaks :
    Heap.readPath (ProjectBase.config demoHeap 0).1 (ProjectBase.config demoHeap 0).2
        ["tool"] = some (PyVal.ref 1)
  ∧ Heap.readPath demoHeap 0 ["tool", "injected"] = none
  ∧ Heap.readPath
        (Heap.setKey (ProjectBase.config demoHeap 0).1 1 "injected" (PyVal.prim "evil"))
        0 ["tool", "injected"]
      = some (PyVal.prim "evil") :=
  ⟨rfl, rfl, rfl⟩

/-- C8 amended: the copy is defensive only at the top level — on a
well-formed heap, writing any key directly on the mapping returned by
`config` (the freshly allocated address) never alters any read of the
internal configuration, whereas mutations of nested sub-tables reached
through the copy do (see the leak counterexample). -/
theorem config_top_level_mutation_independent (h : Heap) (root : Nat) (k : String)
    (v : PyVal) (p : List String) (hwf : Heap.wfb h = true) (hroot : root < h.next)
    (hsome : (Heap.get h root).isSome = true) :
    Heap.readPath
        (Heap.setKey (ProjectBase.config h root).1 (ProjectBase.config h root).2 k v)
        root p
      = Heap.readPath h root p := by
  rcases Option.isSome_iff_exists.mp hsome with ⟨d0, hd0⟩
  have hcfg : ProjectBase.config h root
      = ({ mem := (h.next, d0) :: h.mem, next := h.next + 1 }, h.next) := by
    show Heap.copyDict h root = _
    unfold Heap.copyDict
    rw [hd0]
  rw [hcfg]
  exact readPath_shallow_copy_frame h d0 k v hwf p root hroot

/-- C8 amended witness: on the two-object demo heap, a top-level write
on the returned copy leaves the internal read of `tool.poetry`
unchanged. -/
theorem config_top_level_mutation_independent_witness :
    Heap.readPath
        (Heap.setKey (ProjectBase.config demoHeap 0).1 (ProjectBase.config demoHeap 0).2
          "injected" (PyVal.prim "evil"))
        0 ["tool", "poetry"]
      = Heap.readPath demoHeap 0 ["tool", "poetry"] :=
  config_top_level_mutation_independent demoHeap 0 "injected" (PyVal.prim "evil")
    ["tool", "poetry"] rfl (by decide) rfl
